import Mathlib

/-!
Shallow embedding of the PowerUsageCollection device-discovery tool
(`main.go` together with the repository's `internal/zeroconf` stub).

Discovered service entries are modelled by `ServiceEntry`, IP addresses by
byte lists (mirroring Go's `net.IP`), and the HTTP layer by an explicit
`FetchOutcome` function from URLs to transport failures or responses.
Printed output is modelled as the concatenation of everything the handler
writes to standard output.  Go `float64` payload values are modelled as
rationals; response bodies are modelled as character sequences, so the
512-byte body cap of the status-error path is a 512-character cap here.
-/

/-- A Go `net.IP`: a list of byte values. -/
abbrev NetIP := List Nat

/-- Go `strings.ToLower` restricted to the ASCII case mapping, which covers
every key and field name this program compares. -/
def toLowerGo (s : String) : String := String.mk (s.data.map Char.toLower)

/-- The white-space test of Go `unicode.IsSpace` (the `White_Space`
property), used by `strings.TrimSpace`. -/
def isSpaceGo (c : Char) : Bool :=
  let n := c.toNat
  n = 9 || n = 10 || n = 11 || n = 12 || n = 13 || n = 32 ||
    n = 0x85 || n = 0xA0 || n = 0x1680 || (0x2000 ≤ n && n ≤ 0x200A) ||
    n = 0x2028 || n = 0x2029 || n = 0x202F || n = 0x205F || n = 0x3000

/-- Go `strings.TrimSpace`. -/
def trimSpaceGo (s : String) : String :=
  String.mk (((s.toList.dropWhile isSpaceGo).reverse.dropWhile isSpaceGo).reverse)

/-- Go `strings.TrimSuffix`. -/
def trimSuffix (s suf : String) : String :=
  if suf.data.isSuffixOf s.data then
    String.mk (s.data.take (s.data.length - suf.data.length))
  else s

/-- Take the first `n` characters of a string (models `io.LimitReader` with
an `n`-byte budget over the body). -/
def strTake (n : Nat) (s : String) : String := String.mk (s.toList.take n)

/-- Go `strings.SplitN(s, sep, 2)` at a one-character separator: `none` when
the separator does not occur (Go returns the one-element slice `[s]`),
otherwise the parts before and after the first occurrence. -/
def splitFirstEq : List Char → Option (List Char × List Char)
  | [] => none
  | c :: rest =>
    if c = '=' then some ([], rest)
    else
      match splitFirstEq rest with
      | none => none
      | some (a, b) => some (c :: a, b)

/-- Go `net.isZeros`. -/
def isZeros (p : List Nat) : Bool := p.all (fun b => b = 0)

/-- Go `net.IP.To4`: the 4-byte form of an address that is either already
4 bytes long or is a 16-byte IPv4-mapped IPv6 address; `none` otherwise. -/
def ipTo4 (ip : NetIP) : Option NetIP :=
  if ip.length = 4 then some ip
  else if ip.length = 16 && isZeros (ip.take 10) &&
      ip.getD 10 0 = 0xff && ip.getD 11 0 = 0xff then
    some (ip.drop 12)
  else none

/-- Two lower-case hex digits for one byte (Go `net.hexString` per byte). -/
def hexByte (n : Nat) : String :=
  String.mk [Nat.digitChar (n / 16 % 16), Nat.digitChar (n % 16)]

/-- Go `net.hexString`. -/
def hexString (bs : List Nat) : String := String.join (bs.map hexByte)

/-- One 16-bit IPv6 group in lower-case hex with no leading zeros
(Go `appendHex`). -/
def hexGroup (n : Nat) : String := String.mk (Nat.toDigits 16 n)

/-- Scan for the first longest run of zero groups, mirroring the zero-run
search of Go `net.IP.String` (`e0`/`e1` with a strict improvement test, so
ties keep the first run).  `i` is the current index, `curStart`/`curLen`
the run in progress, `best` the best completed run so far. -/
def scanZeroRuns : List Nat → Nat → Nat → Nat → Nat × Nat → Nat × Nat
  | [], _, curStart, curLen, best =>
    if curLen > best.2 then (curStart, curLen) else best
  | g :: rest, i, curStart, curLen, best =>
    if g = 0 then
      scanZeroRuns rest (i + 1) (if curLen = 0 then i else curStart) (curLen + 1) best
    else
      scanZeroRuns rest (i + 1) 0 0 (if curLen > best.2 then (curStart, curLen) else best)

/-- The zero run Go compresses to `::`: the first longest run of zero
groups, provided it spans at least two groups. -/
def bestZeroRun (gs : List Nat) : Option (Nat × Nat) :=
  let b := scanZeroRuns gs 0 0 0 (0, 0)
  if b.2 ≥ 2 then some b else none

/-- The IPv6 rendering branch of Go `net.IP.String`: eight hex groups with
the chosen zero run replaced by `::`. -/
def ipv6String (ip : NetIP) : String :=
  let gs := (List.range 8).map (fun i => ip.getD (2 * i) 0 * 256 + ip.getD (2 * i + 1) 0)
  match bestZeroRun gs with
  | none => String.intercalate ":" (gs.map hexGroup)
  | some (s, l) =>
    String.intercalate ":" ((gs.take s).map hexGroup) ++ "::" ++
      String.intercalate ":" ((gs.drop (s + l)).map hexGroup)

/-- Go `net.IP.String`: `<nil>` for the empty address, dotted quad for a
4-byte-representable address, `?`-prefixed hex for other invalid lengths,
and the compressed hex form for 16-byte addresses. -/
def ipString (ip : NetIP) : String :=
  if ip.length = 0 then "<nil>"
  else
    match ipTo4 ip with
    | some p4 => String.intercalate "." (p4.map toString)
    | none => if ip.length ≠ 16 then "?" ++ hexString ip else ipv6String ip

/-- `zeroconf.ServiceEntry` from the repository's `internal/zeroconf` stub:
the fields of one discovered advertisement. -/
structure ServiceEntry where
  Instance : String
  HostName : String
  Text : List String
  AddrIPv4 : List NetIP
  AddrIPv6 : List NetIP

/-- The `for _, ip := range entry.AddrIPv4` loop of `pickIPv4`: the string
form of the first address whose `To4` is non-nil, if any. -/
def pickIPv4Loop : List NetIP → Option String
  | [] => none
  | ip :: rest =>
    if (ipTo4 ip).isSome then some (ipString ip) else pickIPv4Loop rest

/-- `pickIPv4` from `main.go`: first genuine IPv4 address, else the first
IPv6 address in square brackets, else the empty string. -/
def pickIPv4 (entry : ServiceEntry) : String :=
  match pickIPv4Loop entry.AddrIPv4 with
  | some s => s
  | none =>
    match entry.AddrIPv6 with
    | ip :: _ => "[" ++ ipString ip ++ "]"
    | [] => ""

/-- The recognized firmware key synonyms of the `switch` in
`firmwareVersion`. -/
def fwKeys : List String := ["fv", "firmware", "firmwareversion", "version"]

/-- The `for _, txt := range entry.Text` loop of `firmwareVersion`. -/
def fwFromText : List String → String
  | [] => ""
  | txt :: rest =>
    match splitFirstEq txt.data with
    | none => fwFromText rest
    | some (k, v) =>
      if fwKeys.contains (toLowerGo (String.mk k)) then String.mk v
      else fwFromText rest

/-- `firmwareVersion` from `main.go`. -/
def firmwareVersion (entry : ServiceEntry) : String := fwFromText entry.Text

/-- `PowerInfo` from `main.go`: the decoded power telemetry payload, with
Go `float64` fields modelled as rationals. -/
structure PowerInfo where
  DeviceName : String
  CurrentWatts : ℚ
  Voltage : ℚ
  Amperage : ℚ
  Timestamp : String
deriving DecidableEq, Repr

/-- The Go zero value of `PowerInfo`, the state `json.Decode` starts from. -/
def powerInfoZero : PowerInfo := PowerInfo.mk "" 0 0 0 ""

/-- A JSON value as read by `encoding/json` (numbers kept as rationals). -/
inductive JVal where
  | null
  | jbool (b : Bool)
  | num (q : ℚ)
  | str (s : String)
  | arr (xs : List JVal)
  | obj (kvs : List (String × JVal))

/-- The white-space set of the `encoding/json` scanner. -/
def isJsonWs (c : Char) : Bool := c = ' ' || c = '\t' || c = '\r' || c = '\n'

/-- Numeric value of a hex digit, if the character is one. -/
def hexDigitVal (c : Char) : Option Nat :=
  if '0' ≤ c ∧ c ≤ '9' then some (c.toNat - 48)
  else if 'a' ≤ c ∧ c ≤ 'f' then some (c.toNat - 87)
  else if 'A' ≤ c ∧ c ≤ 'F' then some (c.toNat - 55)
  else none

/-- Decimal value of a digit string. -/
def digitsVal (ds : List Char) : Nat :=
  ds.foldl (fun a c => a * 10 + (c.toNat - 48)) 0

/-- The rational denoted by a JSON number literal with sign, integer
digits, fraction digits and exponent. -/
def mkNumQ (neg : Bool) (intDs fracDs : List Char) (eneg : Bool) (eds : List Char) : ℚ :=
  let mant : ℚ := (digitsVal (intDs ++ fracDs) : ℚ)
  let e : ℤ := (if eneg then -(digitsVal eds : ℤ) else (digitsVal eds : ℤ)) - fracDs.length
  let mag : ℚ := if 0 ≤ e then mant * (10 : ℚ) ^ e.toNat else mant / (10 : ℚ) ^ (-e).toNat
  if neg then -mag else mag

/-- Exponent digits (after `e`, an optional sign already split off by the
caller is handled here). -/
def parseExpDigits (neg : Bool) (intDs fracDs : List Char) (s : List Char) :
    Option (ℚ × List Char) :=
  let p := match s with
    | '+' :: r => (false, r)
    | '-' :: r => (true, r)
    | _ => (false, s)
  let q := p.2.span Char.isDigit
  if q.1.isEmpty then none
  else some (mkNumQ neg intDs fracDs p.1 q.1, q.2)

/-- Optional exponent part of a JSON number. -/
def parseExpPart (neg : Bool) (intDs fracDs : List Char) (s : List Char) :
    Option (ℚ × List Char) :=
  match s with
  | 'e' :: r => parseExpDigits neg intDs fracDs r
  | 'E' :: r => parseExpDigits neg intDs fracDs r
  | _ => some (mkNumQ neg intDs fracDs false [], s)

/-- Optional fraction then exponent of a JSON number. -/
def parseFracExp (neg : Bool) (intDs : List Char) (s : List Char) :
    Option (ℚ × List Char) :=
  match s with
  | '.' :: r =>
    let q := r.span Char.isDigit
    if q.1.isEmpty then none else parseExpPart neg intDs q.1 q.2
  | _ => parseExpPart neg intDs [] s

/-- A JSON number per the `encoding/json` grammar: optional minus, `0` or a
nonzero-led digit run, optional fraction, optional exponent.  As in the Go
scanner, the value ends at the first character that cannot extend it. -/
def parseNum (s : List Char) : Option (ℚ × List Char) :=
  let p := match s with
    | '-' :: r => (true, r)
    | _ => (false, s)
  match p.2 with
  | [] => none
  | c :: r =>
    if c = '0' then parseFracExp p.1 ['0'] r
    else if c.isDigit then
      let q := r.span Char.isDigit
      parseFracExp p.1 (c :: q.1) q.2
    else none

/-- Body of a JSON string after the opening quote: plain characters,
escapes, and `\u` hex escapes; control characters are rejected.  Surrogate
halves are mapped to the replacement character without pair combining. -/
def parseStrChars : Nat → List Char → Option (List Char × List Char)
  | 0, _ => none
  | _, [] => none
  | fuel + 1, c :: r =>
    if c = '"' then some ([], r)
    else if c = '\\' then
      match r with
      | [] => none
      | e :: r2 =>
        if e = '"' ∨ e = '\\' ∨ e = '/' then
          match parseStrChars fuel r2 with
          | none => none
          | some (cs, rest) => some (e :: cs, rest)
        else if e = 'b' then
          match parseStrChars fuel r2 with
          | none => none
          | some (cs, rest) => some (Char.ofNat 8 :: cs, rest)
        else if e = 'f' then
          match parseStrChars fuel r2 with
          | none => none
          | some (cs, rest) => some (Char.ofNat 12 :: cs, rest)
        else if e = 'n' then
          match parseStrChars fuel r2 with
          | none => none
          | some (cs, rest) => some ('\n' :: cs, rest)
        else if e = 'r' then
          match parseStrChars fuel r2 with
          | none => none
          | some (cs, rest) => some ('\r' :: cs, rest)
        else if e = 't' then
          match parseStrChars fuel r2 with
          | none => none
          | some (cs, rest) => some ('\t' :: cs, rest)
        else if e = 'u' then
          match r2 with
          | a :: b :: c2 :: d :: r3 =>
            match hexDigitVal a, hexDigitVal b, hexDigitVal c2, hexDigitVal d with
            | some ha, some hb, some hc, some hd =>
              let v := ((ha * 16 + hb) * 16 + hc) * 16 + hd
              let ch := if 0xD800 ≤ v ∧ v < 0xE000 then Char.ofNat 0xFFFD else Char.ofNat v
              match parseStrChars fuel r3 with
              | none => none
              | some (cs, rest) => some (ch :: cs, rest)
            | _, _, _, _ => none
          | _ => none
        else none
    else if c.toNat < 0x20 then none
    else
      match parseStrChars fuel r with
      | none => none
      | some (cs, rest) => some (c :: cs, rest)

mutual

/-- One JSON value, after skipping leading white space.  Mirrors the
`encoding/json` scanner in ending a top-level value at the first character
that cannot extend it, so trailing bytes are left unread. -/
def parseVal : Nat → List Char → Option (JVal × List Char)
  | 0, _ => none
  | fuel + 1, s =>
    match s.dropWhile isJsonWs with
    | 'n' :: 'u' :: 'l' :: 'l' :: r => some (JVal.null, r)
    | 't' :: 'r' :: 'u' :: 'e' :: r => some (JVal.jbool true, r)
    | 'f' :: 'a' :: 'l' :: 's' :: 'e' :: r => some (JVal.jbool false, r)
    | '"' :: r =>
      match parseStrChars (fuel + 1) r with
      | none => none
      | some (cs, rest) => some (JVal.str (String.mk cs), rest)
    | '{' :: r => parseObjRest fuel r
    | '[' :: r => parseArrRest fuel r
    | s2 =>
      match parseNum s2 with
      | none => none
      | some (q, rest) => some (JVal.num q, rest)

/-- Object after the opening brace: empty object or a member list. -/
def parseObjRest : Nat → List Char → Option (JVal × List Char)
  | 0, _ => none
  | fuel + 1, s =>
    match s.dropWhile isJsonWs with
    | '}' :: r => some (JVal.obj [], r)
    | s2 => parseMembers fuel s2 []

/-- Comma-separated `"key": value` members up to the closing brace. -/
def parseMembers : Nat → List Char → List (String × JVal) →
    Option (JVal × List Char)
  | 0, _, _ => none
  | fuel + 1, s, acc =>
    match s.dropWhile isJsonWs with
    | '"' :: r =>
      match parseStrChars (fuel + 1) r with
      | none => none
      | some (kcs, r2) =>
        match r2.dropWhile isJsonWs with
        | ':' :: r3 =>
          match parseVal fuel r3 with
          | none => none
          | some (v, r4) =>
            match r4.dropWhile isJsonWs with
            | ',' :: r5 => parseMembers fuel r5 (acc ++ [(String.mk kcs, v)])
            | '}' :: r5 => some (JVal.obj (acc ++ [(String.mk kcs, v)]), r5)
            | _ => none
        | _ => none
    | _ => none

/-- Array after the opening bracket: empty array or an element list. -/
def parseArrRest : Nat → List Char → Option (JVal × List Char)
  | 0, _ => none
  | fuel + 1, s =>
    match s.dropWhile isJsonWs with
    | ']' :: r => some (JVal.arr [], r)
    | s2 => parseElems fuel s2 []

/-- Comma-separated array elements up to the closing bracket. -/
def parseElems : Nat → List Char → List JVal → Option (JVal × List Char)
  | 0, _, _ => none
  | fuel + 1, s, acc =>
    match parseVal fuel s with
    | none => none
    | some (v, r) =>
      match r.dropWhile isJsonWs with
      | ',' :: r2 => parseElems fuel r2 (acc ++ [v])
      | ']' :: r2 => some (JVal.arr (acc ++ [v]), r2)
      | _ => none

end

/-- The single `Decoder.Decode` call of `fetchPower`: read one JSON value
from the front of the body, leaving any trailing bytes unread. -/
def parseTop (s : String) : Option (JVal × List Char) :=
  parseVal (4 * (s.length + 1)) s.toList

/-- Classified decode failures of the `encoding/json` stage: no parsable
JSON value, a top-level value of unassignable kind, or a field whose JSON
value has the wrong type for the struct field. -/
inductive DecErr where
  | notJson
  | wrongShape
  | wrongType (field : String)
deriving DecidableEq, Repr

/-- Rendering of a decode failure for the printed error message. -/
def decErrMsg : DecErr → String
  | DecErr.notJson => "invalid JSON in response body"
  | DecErr.wrongShape => "json: cannot unmarshal value into PowerInfo"
  | DecErr.wrongType f => "json: cannot unmarshal value into field " ++ f

/-- `encoding/json` struct-field key matching: tag names compare
case-insensitively. -/
def eqFold (a b : String) : Bool := toLowerGo a == toLowerGo b

/-- Whether a JSON object key names some `PowerInfo` field tag. -/
def isKnownField (k : String) : Bool :=
  eqFold k "deviceName" || eqFold k "currentWatts" || eqFold k "voltage" ||
    eqFold k "amperage" || eqFold k "timestamp"

/-- Decoding of one JSON object member into `PowerInfo`: a key matching a
field tag assigns the field (JSON `null` leaves it unchanged, a value of
the wrong type fails), an unknown key leaves the record untouched. -/
def decodeField (k : String) (v : JVal) (i : PowerInfo) : Except DecErr PowerInfo :=
  if eqFold k "deviceName" then
    match v with
    | JVal.str s => Except.ok (PowerInfo.mk s i.CurrentWatts i.Voltage i.Amperage i.Timestamp)
    | JVal.null => Except.ok i
    | _ => Except.error (DecErr.wrongType "deviceName")
  else if eqFold k "currentWatts" then
    match v with
    | JVal.num q => Except.ok (PowerInfo.mk i.DeviceName q i.Voltage i.Amperage i.Timestamp)
    | JVal.null => Except.ok i
    | _ => Except.error (DecErr.wrongType "currentWatts")
  else if eqFold k "voltage" then
    match v with
    | JVal.num q => Except.ok (PowerInfo.mk i.DeviceName i.CurrentWatts q i.Amperage i.Timestamp)
    | JVal.null => Except.ok i
    | _ => Except.error (DecErr.wrongType "voltage")
  else if eqFold k "amperage" then
    match v with
    | JVal.num q => Except.ok (PowerInfo.mk i.DeviceName i.CurrentWatts i.Voltage q i.Timestamp)
    | JVal.null => Except.ok i
    | _ => Except.error (DecErr.wrongType "amperage")
  else if eqFold k "timestamp" then
    match v with
    | JVal.str s => Except.ok (PowerInfo.mk i.DeviceName i.CurrentWatts i.Voltage i.Amperage s)
    | JVal.null => Except.ok i
    | _ => Except.error (DecErr.wrongType "timestamp")
  else Except.ok i

/-- Decoding of the members of a JSON object into `PowerInfo` in order,
stopping at the first type mismatch. -/
def decodeFields : List (String × JVal) → PowerInfo → Except DecErr PowerInfo
  | [], i => Except.ok i
  | (k, v) :: rest, i =>
    match decodeField k v i with
    | Except.error e => Except.error e
    | Except.ok i2 => decodeFields rest i2

/-- Unmarshalling one JSON value into `PowerInfo`: `null` leaves the zero
value, an object is decoded member by member, anything else is a type
mismatch. -/
def decodeInto : JVal → Except DecErr PowerInfo
  | JVal.null => Except.ok powerInfoZero
  | JVal.obj kvs => decodeFields kvs powerInfoZero
  | _ => Except.error DecErr.wrongShape

/-- `json.NewDecoder(resp.Body).Decode(&info)` of `fetchPower`: one value
read from the front of the body and unmarshalled into `PowerInfo`. -/
def decodePowerBody (body : String) : Except DecErr PowerInfo :=
  match parseTop body with
  | none => Except.error DecErr.notJson
  | some (v, _) => decodeInto v

/-- An HTTP response as `fetchPower` inspects it: numeric status code, the
status line of `resp.Status`, and the body. -/
structure HTTPResponse where
  statusCode : Nat
  status : String
  body : String

/-- What `client.Get` yields for a URL: a transport failure or a response. -/
inductive FetchOutcome where
  | transport (cause : String)
  | response (resp : HTTPResponse)

/-- The error classification of `fetchPower`. -/
inductive FetchErr where
  | transport (cause : String)
  | badStatus (statusLine : String) (snippet : String)
  | decodeFail (cause : DecErr)
deriving DecidableEq, Repr

/-- The message a `FetchErr` prints as; the bad-status case is the exact
`fmt.Errorf("unexpected status %s: %s", ...)` format of `fetchPower`. -/
def errMsg : FetchErr → String
  | FetchErr.transport c => c
  | FetchErr.badStatus line snip => "unexpected status " ++ line ++ ": " ++ snip
  | FetchErr.decodeFail c => decErrMsg c

/-- The response-processing part of `fetchPower` from `main.go`: any status
other than 200 fails with the status error built from at most 512 bytes of
trimmed body; otherwise the body is JSON-decoded. -/
def fetchPowerResp (r : HTTPResponse) : Except FetchErr PowerInfo :=
  if r.statusCode ≠ 200 then
    Except.error (FetchErr.badStatus r.status (trimSpaceGo (strTake 512 r.body)))
  else
    match decodePowerBody r.body with
    | Except.error e => Except.error (FetchErr.decodeFail e)
    | Except.ok info => Except.ok info

/-- `fetchPower` from `main.go` over an explicit network: `client.Get` may
fail in transport, otherwise the response is processed. -/
def fetchPower (net : String → FetchOutcome) (url : String) : Except FetchErr PowerInfo :=
  match net url with
  | FetchOutcome.transport c => Except.error (FetchErr.transport c)
  | FetchOutcome.response r => fetchPowerResp r

/-- Nearest-integer rounding with ties to even, the rounding `%.2f`
performs at the final decimal place. -/
def roundHalfEven (q : ℚ) : ℤ :=
  let f := Rat.floor q
  let r := q - (f : ℚ)
  if r < 1 / 2 then f else if 1 / 2 < r then f + 1 else if f % 2 = 0 then f else f + 1

/-- `fmt.Sprintf` `%.2f` over the rational model of `float64`: sign, then
the magnitude rounded to hundredths with a two-digit fraction. -/
def fmtFixed2 (q : ℚ) : String :=
  let n := roundHalfEven (q * 100)
  let m := n.natAbs
  (if q < 0 then "-" else "") ++ toString (m / 100) ++ "." ++
    (if m % 100 < 10 then "0" else "") ++ toString (m % 100)

/-- The header line `\nDiscovered: <instance> (<host>)` printed by
`handleEntry`, with the trailing dot trimmed from the host name. -/
def headerStr (entry : ServiceEntry) : String :=
  "\nDiscovered: " ++ entry.Instance ++ " (" ++ trimSuffix entry.HostName "." ++ ")\n"

/-- `handleEntry` from `main.go`, with everything it prints to standard
output concatenated in print order. -/
def handleEntry (net : String → FetchOutcome) (entry : ServiceEntry)
    (listOnly : Bool) : String :=
  let addr := pickIPv4 entry
  let header := headerStr entry
  if listOnly then
    let fw0 := firmwareVersion entry
    let fw := if fw0 = "" then "unknown" else fw0
    header ++ ("  Name: " ++ entry.Instance ++ "\n" ++ "  Firmware: " ++ fw ++ "\n")
  else if addr = "" then
    header ++ "  No IPv4 address available; skipping power query.\n"
  else
    let powerURL := "http://" ++ addr ++ ":80/api/power"
    header ++ ("  Querying: " ++ powerURL ++ "\n" ++
      match fetchPower net powerURL with
      | Except.error e => "  Power query failed: " ++ errMsg e ++ "\n"
      | Except.ok power =>
        "  Current power: " ++ fmtFixed2 power.CurrentWatts ++ " W" ++
          (if power.Timestamp ≠ "" then " (timestamp: " ++ power.Timestamp ++ ")" else "") ++ "\n")

/-- The consumption loop of `main`: each entry from the discovery stream is
dispatched to `handleEntry` in arrival order, and its output follows the
output of the entries before it. -/
def processEntries (net : String → FetchOutcome) (listOnly : Bool) :
    List ServiceEntry → String
  | [] => ""
  | e :: rest => handleEntry net e listOnly ++ processEntries net listOnly rest

/-- Concatenation of a list of per-entry outputs in order. -/
def concatOutputs : List String → String
  | [] => ""
  | s :: rest => s ++ concatOutputs rest

/-- The Address Selector algorithm in the spec's words: the string form of
the first `ipv4Addresses` element representable as a genuine 4-byte
address; otherwise the bracketed string form of `ipv6Addresses` index 0;
otherwise the empty string. -/
def pickIPv4Spec (entry : ServiceEntry) : String :=
  match entry.AddrIPv4.find? (fun ip => (ipTo4 ip).isSome) with
  | some ip => ipString ip
  | none =>
    match entry.AddrIPv6 with
    | [] => ""
    | ip :: _ => "[" ++ ipString ip ++ "]"

/-- The Text-Record Parser step in the spec's words, for one attribute:
split at the first `=` (no `=` means the entry is skipped), lower-case the
key, and yield the value verbatim when the key is a recognized synonym. -/
def fwAttrValue (txt : String) : Option String :=
  match splitFirstEq txt.data with
  | none => none
  | some (k, v) =>
    if fwKeys.contains (toLowerGo (String.mk k)) then some (String.mk v) else none

/-- Whether some text attribute of the entry carries a recognized firmware
key with an empty value. -/
def hasEmptyFwAttr (entry : ServiceEntry) : Bool :=
  entry.Text.any (fun t =>
    match splitFirstEq t.data with
    | some (k, v) => fwKeys.contains (toLowerGo (String.mk k)) && v.isEmpty
    | none => false)

/-- The address-selection loop returns the string form of the first
element whose `To4` check succeeds. -/
theorem pickIPv4Loop_eq_find (l : List NetIP) :
    pickIPv4Loop l = (l.find? (fun ip => (ipTo4 ip).isSome)).map ipString := by
  induction l with
  | nil => rfl
  | cons ip rest ih =>
    cases h : (ipTo4 ip).isSome with
    | true => simp [pickIPv4Loop, List.find?_cons, h]
    | false => simp [pickIPv4Loop, List.find?_cons, h, ih]

/-- The firmware-extraction loop returns the value of the first text
attribute recognized by `fwAttrValue`, or the empty string. -/
theorem fwFromText_eq_findSome (ts : List String) :
    fwFromText ts = (ts.findSome? fwAttrValue).getD "" := by
  induction ts with
  | nil => rfl
  | cons txt rest ih =>
    rw [fwFromText, List.findSome?_cons]
    cases hsp : splitFirstEq txt.data with
    | none => simp [fwAttrValue, hsp, ih]
    | some kv =>
      obtain ⟨k, v⟩ := kv
      by_cases hk : toLowerGo (String.mk k) ∈ fwKeys
      · simp [fwAttrValue, hsp, hk]
      · simp [fwAttrValue, hsp, hk, ih]

/-- List-mode output of the handler: header, name line, firmware line with
the `unknown` substitution. -/
theorem handleEntry_list_eq (net : String → FetchOutcome) (e : ServiceEntry) :
    handleEntry net e true =
      headerStr e ++ ("  Name: " ++ e.Instance ++ "\n" ++ "  Firmware: " ++
        (if firmwareVersion e = "" then "unknown" else firmwareVersion e) ++ "\n") := by
  simp [handleEntry]

/-- Query-mode output of the handler when no address is available. -/
theorem handleEntry_noaddr_eq (net : String → FetchOutcome) (e : ServiceEntry)
    (h : pickIPv4 e = "") :
    handleEntry net e false =
      headerStr e ++ "  No IPv4 address available; skipping power query.\n" := by
  simp [handleEntry, h]

/-- Query-mode output of the handler when an address is available: the
querying line, then the failure or success line. -/
theorem handleEntry_query_eq (net : String → FetchOutcome) (e : ServiceEntry)
    (h : pickIPv4 e ≠ "") :
    handleEntry net e false =
      headerStr e ++ ("  Querying: " ++ ("http://" ++ pickIPv4 e ++ ":80/api/power") ++ "\n" ++
        match fetchPower net ("http://" ++ pickIPv4 e ++ ":80/api/power") with
        | Except.error err => "  Power query failed: " ++ errMsg err ++ "\n"
        | Except.ok power =>
          "  Current power: " ++ fmtFixed2 power.CurrentWatts ++ " W" ++
            (if power.Timestamp ≠ "" then " (timestamp: " ++ power.Timestamp ++ ")" else "") ++
            "\n") := by
  unfold handleEntry
  simp only [Bool.false_eq_true, if_false]
  rw [if_neg h]

/-- C1: the Address Selector returns the string form of the first element
of `ipv4Addresses` representable as a genuine 4-byte address; failing
that, the bracketed string form of `ipv6Addresses` index 0 when that list
is non-empty; the empty string when both are empty or disqualified.  The
second conjunct records that no IPv6 candidate beyond index 0 is ever
considered: the result is invariant under replacing the tail of
`ipv6Addresses`. -/
theorem pickIPv4_address_selection (e : ServiceEntry) :
    pickIPv4 e = pickIPv4Spec e ∧
      ∀ x t t2,
        pickIPv4 (ServiceEntry.mk e.Instance e.HostName e.Text e.AddrIPv4 (x :: t)) =
          pickIPv4 (ServiceEntry.mk e.Instance e.HostName e.Text e.AddrIPv4 (x :: t2)) := by
  constructor
  · rw [pickIPv4, pickIPv4Spec, pickIPv4Loop_eq_find]
    cases List.find? (fun ip => (ipTo4 ip).isSome) e.AddrIPv4 with
    | some ip => rfl
    | none => cases e.AddrIPv6 <;> rfl
  · intro x t t2
    rw [pickIPv4, pickIPv4]

/-- C2: the Text-Record Parser scans `textAttributes` in order, splits each
at the first `=` (entries without `=` are skipped), lower-cases the key,
and returns verbatim the value of the first entry whose lower-cased key is
a recognized synonym, or the empty string when none matches;
`fwAttrValue` states that per-entry step in the spec's words. -/
theorem firmwareVersion_first_recognized (e : ServiceEntry) :
    firmwareVersion e = (e.Text.findSome? fwAttrValue).getD "" :=
  fwFromText_eq_findSome e.Text

/-- C3: for a response whose status is not a success status, `fetchPower`
fails with the status error built from at most 512 bytes of the
whitespace-trimmed body, no reading is returned, and the error message is
exactly `unexpected status <status-line>: <trimmed-body-snippet>`. -/
theorem fetchPower_status_error (r : HTTPResponse)
    (h : ¬ (200 ≤ r.statusCode ∧ r.statusCode < 300)) :
    fetchPowerResp r =
      Except.error (FetchErr.badStatus r.status (trimSpaceGo (strTake 512 r.body))) ∧
      errMsg (FetchErr.badStatus r.status (trimSpaceGo (strTake 512 r.body))) =
        "unexpected status " ++ r.status ++ ": " ++ trimSpaceGo (strTake 512 r.body) := by
  have hne : r.statusCode ≠ 200 := by
    intro he
    exact h (by omega)
  exact ⟨by simp [fetchPowerResp, hne], rfl⟩

/-- C3 witness: a 500 response with body ` oops \n` yields the status error
with the trimmed snippet `oops`. -/
theorem fetchPower_status_error_witness :
    (¬ (200 ≤ (HTTPResponse.mk 500 "500 Internal Server Error" " oops \n").statusCode ∧
        (HTTPResponse.mk 500 "500 Internal Server Error" " oops \n").statusCode < 300)) ∧
      (fetchPowerResp (HTTPResponse.mk 500 "500 Internal Server Error" " oops \n") =
          Except.error (FetchErr.badStatus "500 Internal Server Error"
            (trimSpaceGo (strTake 512 " oops \n"))) ∧
        errMsg (FetchErr.badStatus "500 Internal Server Error"
            (trimSpaceGo (strTake 512 " oops \n"))) =
          "unexpected status 500 Internal Server Error: " ++
            trimSpaceGo (strTake 512 " oops \n")) ∧
      trimSpaceGo (strTake 512 " oops \n") = "oops" :=
  ⟨by decide,
   fetchPower_status_error (HTTPResponse.mk 500 "500 Internal Server Error" " oops \n")
     (by decide),
   by rfl⟩

/-- C4: for a success-status (200) response, a body that decodes yields
exactly the decoded reading, a body that does not decode yields a decode
error carrying the cause and no partial reading; the empty JSON object
decodes to the all-zero reading (missing optional fields default to 0.0 or
the empty string), and an unrecognized JSON object key is ignored. -/
theorem fetchPower_success_decode (r : HTTPResponse) (h : r.statusCode = 200) :
    (∀ info, decodePowerBody r.body = Except.ok info → fetchPowerResp r = Except.ok info) ∧
      (∀ e, decodePowerBody r.body = Except.error e →
        fetchPowerResp r = Except.error (FetchErr.decodeFail e)) ∧
      decodeInto (JVal.obj []) = Except.ok powerInfoZero ∧
      (∀ k v kvs i, isKnownField k = false →
        decodeField k v i = Except.ok i ∧
          decodeFields ((k, v) :: kvs) i = decodeFields kvs i) := by
  refine ⟨?_, ?_, rfl, ?_⟩
  · intro info hd
    simp [fetchPowerResp, h, hd]
  · intro e hd
    simp [fetchPowerResp, h, hd]
  · intro k v kvs i hk
    simp only [isKnownField, Bool.or_eq_false_iff] at hk
    obtain ⟨⟨⟨⟨h1, h2⟩, h3⟩, h4⟩, h5⟩ := hk
    have hf : decodeField k v i = Except.ok i := by
      unfold decodeField
      rw [h1, h2, h3, h4, h5]
      simp only [Bool.false_eq_true, if_false]
    refine ⟨hf, ?_⟩
    rw [decodeFields, hf]

/-- C4 witness: a 200 response whose body is an object with only an
unrecognized key decodes to the all-zero reading. -/
theorem fetchPower_success_decode_witness :
    (HTTPResponse.mk 200 "200 OK" "\x7b\"nonsense\":true\x7d").statusCode = 200 ∧
      fetchPowerResp (HTTPResponse.mk 200 "200 OK" "\x7b\"nonsense\":true\x7d") =
        Except.ok powerInfoZero :=
  ⟨rfl,
   (fetchPower_success_decode (HTTPResponse.mk 200 "200 OK" "\x7b\"nonsense\":true\x7d")
       rfl).1 powerInfoZero (by rfl)⟩

/-- C5: in list mode the handler prints the header with the trailing
domain separator stripped (inside `headerStr`), the instance name and the
firmware version with `unknown` substituted for the empty extraction, and
its output is independent of the address lists and of the network, so no
address resolution result or HTTP query can influence this terminal
branch. -/
theorem handleEntry_list_mode (net net2 : String → FetchOutcome) (e : ServiceEntry)
    (v4 v6 : List NetIP) :
    handleEntry net e true =
      headerStr e ++ ("  Name: " ++ e.Instance ++ "\n" ++ "  Firmware: " ++
        (if firmwareVersion e = "" then "unknown" else firmwareVersion e) ++ "\n") ∧
      handleEntry net e true =
        handleEntry net2 (ServiceEntry.mk e.Instance e.HostName e.Text v4 v6) true := by
  refine ⟨handleEntry_list_eq net e, ?_⟩
  rw [handleEntry_list_eq net e, handleEntry_list_eq net2]
  rfl

/-- C6: in query mode, when the Address Selector yields the empty string
the handler prints exactly the skip notice after the header and stops; the
output is independent of the network, so no fetch happens. -/
theorem handleEntry_no_address (net net2 : String → FetchOutcome) (e : ServiceEntry)
    (h : pickIPv4 e = "") :
    handleEntry net e false =
      headerStr e ++ "  No IPv4 address available; skipping power query.\n" ∧
      handleEntry net2 e false = handleEntry net e false := by
  refine ⟨handleEntry_noaddr_eq net e h, ?_⟩
  rw [handleEntry_noaddr_eq net e h, handleEntry_noaddr_eq net2 e h]

/-- C6 witness: an entry with no addresses is skipped with the notice. -/
theorem handleEntry_no_address_witness :
    pickIPv4 (ServiceEntry.mk "NoIP Device" "noip.local." [] [] []) = "" ∧
      handleEntry (fun _ => FetchOutcome.transport "connection refused")
          (ServiceEntry.mk "NoIP Device" "noip.local." [] [] []) false =
        headerStr (ServiceEntry.mk "NoIP Device" "noip.local." [] [] []) ++
          "  No IPv4 address available; skipping power query.\n" :=
  ⟨rfl,
   (handleEntry_no_address (fun _ => FetchOutcome.transport "connection refused")
       (fun _ => FetchOutcome.transport "connection refused")
       (ServiceEntry.mk "NoIP Device" "noip.local." [] [] []) rfl).1⟩

/-- C7: in query mode with a resolved address the handler queries exactly
`http://<address>:80/api/power` (the URL is built from the address alone —
`ServiceEntry` carries no port or path metadata), prints the querying
line first, then either the failure line with the error message or the
wattage to two decimal places with the timestamp appended exactly when it
is non-empty. -/
theorem handleEntry_query_mode (net : String → FetchOutcome) (e : ServiceEntry)
    (h : pickIPv4 e ≠ "") :
    handleEntry net e false =
      headerStr e ++ ("  Querying: " ++ ("http://" ++ pickIPv4 e ++ ":80/api/power") ++ "\n" ++
        match fetchPower net ("http://" ++ pickIPv4 e ++ ":80/api/power") with
        | Except.error err => "  Power query failed: " ++ errMsg err ++ "\n"
        | Except.ok power =>
          "  Current power: " ++ fmtFixed2 power.CurrentWatts ++ " W" ++
            (if power.Timestamp ≠ "" then " (timestamp: " ++ power.Timestamp ++ ")" else "") ++
            "\n") :=
  handleEntry_query_eq net e h

/-- C7 witness: an entry carrying the IPv4 address 192.168.1.5 resolves to
a non-empty address, and the query-mode output is the querying line for
`http://192.168.1.5:80/api/power` followed by the failure line for the
transport error the network returns. -/
theorem handleEntry_query_mode_witness :
    pickIPv4 (ServiceEntry.mk "Lamp" "lamp.local." [] [[192, 168, 1, 5]] []) ≠ "" ∧
      handleEntry (fun _ => FetchOutcome.transport "dial tcp: connection refused")
          (ServiceEntry.mk "Lamp" "lamp.local." [] [[192, 168, 1, 5]] []) false =
        headerStr (ServiceEntry.mk "Lamp" "lamp.local." [] [[192, 168, 1, 5]] []) ++
          ("  Querying: " ++
            ("http://" ++ pickIPv4 (ServiceEntry.mk "Lamp" "lamp.local." [] [[192, 168, 1, 5]] []) ++
              ":80/api/power") ++ "\n" ++
            match
              fetchPower (fun _ => FetchOutcome.transport "dial tcp: connection refused")
                ("http://" ++
                  pickIPv4 (ServiceEntry.mk "Lamp" "lamp.local." [] [[192, 168, 1, 5]] []) ++
                  ":80/api/power") with
            | Except.error err => "  Power query failed: " ++ errMsg err ++ "\n"
            | Except.ok power =>
              "  Current power: " ++ fmtFixed2 power.CurrentWatts ++ " W" ++
                (if power.Timestamp ≠ "" then " (timestamp: " ++ power.Timestamp ++ ")" else "") ++
                "\n") :=
  ⟨by decide,
   handleEntry_query_mode (fun _ => FetchOutcome.transport "dial tcp: connection refused")
     (ServiceEntry.mk "Lamp" "lamp.local." [] [[192, 168, 1, 5]] []) (by decide)⟩

/-- C8: the stream loop of `main` handles every entry of the stream in
arrival order and concatenates their reports; the handler is a total
function whose output in every case starts with the entry's header, so a
failure while handling one entry (missing address, transport error, bad
status, decode error) cannot suppress any later entry's header. -/
theorem processEntries_isolation (net : String → FetchOutcome) (listOnly : Bool)
    (es : List ServiceEntry) :
    processEntries net listOnly es =
      concatOutputs (es.map (fun e => handleEntry net e listOnly)) ∧
      ∀ e : ServiceEntry, ∃ rest : String,
        handleEntry net e listOnly = headerStr e ++ rest := by
  constructor
  · induction es with
    | nil => rfl
    | cons a l ih => rw [processEntries, List.map_cons, concatOutputs, ih]
  · intro e
    cases listOnly with
    | true => exact ⟨_, handleEntry_list_eq net e⟩
    | false =>
      by_cases hadr : pickIPv4 e = ""
      · exact ⟨_, handleEntry_noaddr_eq net e hadr⟩
      · exact ⟨_, handleEntry_query_eq net e hadr⟩

/-- C9 counterexample: the claim quantifies over entries whose
`textAttributes` contain a recognized firmware key with an empty value,
but this entry carries `firmware=` and still extracts `1.0` (from the
earlier `fv=1.0`), so the parser does not return the empty string and list
mode prints `Firmware: 1.0`, not `unknown`. -/
theorem firmware_empty_value_counterexample :
    hasEmptyFwAttr (ServiceEntry.mk "Dev" "host.local." ["fv=1.0", "firmware="] [] []) = true ∧
      firmwareVersion (ServiceEntry.mk "Dev" "host.local." ["fv=1.0", "firmware="] [] []) =
        "1.0" ∧
      handleEntry (fun _ => FetchOutcome.transport "unused")
          (ServiceEntry.mk "Dev" "host.local." ["fv=1.0", "firmware="] [] []) true =
        "\nDiscovered: Dev (host.local)\n  Name: Dev\n  Firmware: 1.0\n" :=
  ⟨rfl, rfl, rfl⟩

/-- C9 (amended): for every entry whose FIRST text attribute bearing a
recognized firmware key has an empty value, the parser returns the empty
string — indistinguishable from the key being absent — so in list mode the
handler prints `Firmware: unknown` although a recognized firmware key was
present. -/
theorem firmware_first_match_empty (net : String → FetchOutcome) (e : ServiceEntry)
    (h : e.Text.findSome? fwAttrValue = some "") :
    firmwareVersion e = "" ∧
      handleEntry net e true =
        headerStr e ++ ("  Name: " ++ e.Instance ++ "\n" ++ "  Firmware: " ++ "unknown" ++ "\n") := by
  have h1 : firmwareVersion e = "" := by
    rw [firmwareVersion, fwFromText_eq_findSome, h]
    rfl
  refine ⟨h1, ?_⟩
  rw [handleEntry_list_eq net e, h1]
  simp

/-- C9 witness: an entry advertising only `firmware=` extracts the empty
string and is listed with `Firmware: unknown`. -/
theorem firmware_first_match_empty_witness :
    (ServiceEntry.mk "Dev" "host.local." ["firmware="] [] []).Text.findSome? fwAttrValue =
        some "" ∧
      firmwareVersion (ServiceEntry.mk "Dev" "host.local." ["firmware="] [] []) = "" ∧
        handleEntry (fun _ => FetchOutcome.transport "unused")
            (ServiceEntry.mk "Dev" "host.local." ["firmware="] [] []) true =
          headerStr (ServiceEntry.mk "Dev" "host.local." ["firmware="] [] []) ++
            ("  Name: " ++ "Dev" ++ "\n" ++ "  Firmware: " ++ "unknown" ++ "\n") :=
  ⟨rfl,
   firmware_first_match_empty (fun _ => FetchOutcome.transport "unused")
     (ServiceEntry.mk "Dev" "host.local." ["firmware="] [] []) rfl⟩

/-- C10: for a success-status response, the decoder reads exactly one JSON
value off the front of the body and the trailing bytes `rest` are
arbitrary: whenever that first value is assignable to `PowerInfo` the
fetch succeeds with the decoded reading (so trailing garbage after a valid
object never causes a decode error), and the literal `null` yields the
all-zero reading. -/
theorem fetchPower_single_value (r : HTTPResponse) (v : JVal) (rest : List Char)
    (h200 : r.statusCode = 200) (hp : parseTop r.body = some (v, rest)) :
    (∀ info, decodeInto v = Except.ok info → fetchPowerResp r = Except.ok info) ∧
      (v = JVal.null → fetchPowerResp r = Except.ok powerInfoZero) := by
  constructor
  · intro info hi
    simp [fetchPowerResp, h200, decodePowerBody, hp, hi]
  · intro hv
    subst hv
    simp [fetchPowerResp, h200, decodePowerBody, hp, decodeInto]

/-- C10 witness: a 200 response whose body is `null` followed by bytes
that are not JSON still decodes to the all-zero reading, because only the
first value is consumed. -/
theorem fetchPower_single_value_witness :
    (HTTPResponse.mk 200 "200 OK" "null @@ not json @@").statusCode = 200 ∧
      parseTop "null @@ not json @@" = some (JVal.null, (" @@ not json @@").data) ∧
      fetchPowerResp (HTTPResponse.mk 200 "200 OK" "null @@ not json @@") =
        Except.ok powerInfoZero :=
  ⟨rfl, rfl,
   (fetchPower_single_value (HTTPResponse.mk 200 "200 OK" "null @@ not json @@") JVal.null
       (" @@ not json @@").data rfl rfl).2 rfl⟩
